import Mathlib

/-!
# Verification of `vuln_scanner.py` (go-vuln-scanner)

Shallow embedding of the web-vulnerability scanner in `src/vuln_scanner.py`
and proofs of the specification claims about it.

Modelling conventions:
* The network is an explicit environment `net : String → Nat → NetEvent`
  mapping a URL and a timeout to either a successful HTTP response or a
  transport-level failure (the `requests.exceptions.RequestException` cases:
  connection refused, DNS failure, timeout, TLS handshake failure).
* A `requests` `Response` is a status code plus decoded body text.
  Its Python truthiness (`Response.__bool__`) is `Response.ok`, which is
  computed via `raise_for_status()` and is therefore false exactly for
  `400 ≤ status_code < 600` (statuses 600-999, which `http.client`
  accepts, are truthy); this matters for the `if resp and ...` /
  `elif resp:` tests in the source and is modelled faithfully by
  `Response.ok`.
* Python dicts appearing as findings are modelled as association lists in
  insertion order (`Finding`); the program never builds duplicate keys.
* `json.dump` / `json.loads` (stdlib collaborators) are modelled by an
  executable serializer `renderFindings` and parser `parseFindings` over the
  exact record shapes the scanner exports (an array of flat string-valued
  objects, with `"` and `\` escaped).
* The threaded worker pool of `check_common_paths` (lines 59-82) is modelled
  by a small-step transition relation `Step` over `PoolState`; the sequential
  reference semantics of the phase is `check_common_paths`.
-/

namespace VulnScanner

/-- An HTTP response as seen through `requests`: status code and decoded
body text (`resp.status_code`, `resp.text`). -/
structure Response where
  status_code : Nat
  text : String
deriving DecidableEq

/-- Python truthiness of a `requests` `Response`: `Response.__bool__` is
`self.ok`, which is implemented by calling `raise_for_status()` — that
raises exactly for `400 ≤ status_code < 600`. Statuses outside that band
(including the 600-999 range that `http.client` accepts) are truthy. -/
def Response.ok (r : Response) : Bool :=
  decide (r.status_code < 400 ∨ 600 ≤ r.status_code)

/-- One network interaction: either the GET succeeds with a response, or it
fails with a transport-level error (`requests.exceptions.RequestException`),
carrying the error description. -/
inductive NetEvent where
  | success (r : Response)
  | failure (msg : String)
deriving DecidableEq

/-- The network environment: what happens when a GET with a given timeout is
issued against a given URL. -/
abbrev Net := String → Nat → NetEvent

/-- `robust_get` (lines 33-40): issues the GET and catches every
`requests.exceptions.RequestException`, returning `None` (here `none`) on a
transport failure and the response otherwise. The error description is only
printed, never propagated. -/
def robust_get (net : Net) (url : String) (timeout : Nat) : Option Response :=
  match net url timeout with
  | NetEvent.success r => some r
  | NetEvent.failure _ => none

/-- A finding record: the Python dict, as an association list of string keys
to string values in insertion order. -/
abbrev Finding := List (String × String)

/-- Field lookup in a finding dict. -/
def getField : Finding → String → Option String
  | [], _ => none
  | (k, v) :: rest, key => if k == key then some v else getField rest key

/-- The exposed-path finding dict built at line 67:
`{'type': 'exposed_path', 'url': url}`. -/
def mkExposed (url : String) : Finding :=
  [("type", "exposed_path"), ("url", url)]

/-- The CVE finding dict built at line 90 and mutated in lines 94-101:
`{'type': 'cve_test', 'cve': cve, 'url': url, 'status': st, 'details': dt}`. -/
def mkCve (cve url status details : String) : Finding :=
  [("type", "cve_test"), ("cve", cve), ("url", url),
   ("status", status), ("details", details)]

/-- Substring test on character lists, the semantics of Python's
`keyword in resp.text` (line 93): the needle occurs contiguously in the
haystack (and the empty needle always occurs). -/
def containsSub : List Char → List Char → Bool
  | needle, [] => needle.isEmpty
  | needle, c :: t => needle.isPrefixOf (c :: t) || containsSub needle t

/-- Python `kw in body` on strings. -/
def strContains (needle hay : String) : Bool :=
  containsSub needle.data hay.data

/-- `COMMON_PATHS` (lines 29-31). -/
def COMMON_PATHS : List String :=
  ["/admin", "/login", "/.git", "/.env", "/config", "/phpinfo.php",
   "/test", "/backup", "/.DS_Store"]

/-- One entry of the `CVE_PATHS` table: CVE id, probe path, optional
keyword expected in the body when the vulnerability is present. -/
structure CveTask where
  cve : String
  path : String
  keyword : Option String
deriving DecidableEq

/-- `CVE_PATHS` (lines 21-27), in dict insertion order. -/
def CVE_PATHS : List CveTask :=
  [⟨"CVE-2017-5638", "/struts2-showcase/index.action", some "Apache"⟩,
   ⟨"CVE-2019-19781", "/vpn/../vpns/", none⟩,
   ⟨"CVE-2021-41773", "/cgi-bin/.%2e/%2e%2e/%2e%2e/%2e%2e/etc/passwd",
    some "root:"⟩]

/-- The body of one worker iteration of `check_common_paths` for one path
(lines 64-68): probe `target + path`; the Python test
`if resp and resp.status_code == 200` is truthiness of `resp`
(non-`None` and `ok`) conjoined with the status test. Returns the finding
appended to `results`, if any. -/
def pathStep (net : Net) (timeout : Nat) (target path : String) :
    Option Finding :=
  let url := target ++ path
  match robust_get net url timeout with
  | some resp =>
      if resp.ok && (resp.status_code == 200) then some (mkExposed url)
      else none
  | none => none

/-- Sequential reference semantics of the common-paths phase
(`check_common_paths`, lines 56-83): the findings collected over
`COMMON_PATHS`, in table order. The threaded pool may append them in any
order; see `Step` below for the concurrent model. -/
def check_common_paths (net : Net) (timeout : Nat) (target : String) :
    List Finding :=
  COMMON_PATHS.filterMap (pathStep net timeout target)

/-- The progress line printed for one CVE task in `check_cve_signatures`
(lines 96-107), by kind. -/
inductive CveLog where
  /-- `[CVE] ... likely present` (line 96). -/
  | likelyPresent
  /-- `[OK] ... not detected, keyword not found` (line 99). -/
  | keywordMissing
  /-- `[CVE] ... possibly detected` (line 102). -/
  | possiblyDetected
  /-- `[OK] ... not detected (HTTP <code>)` (line 105). -/
  | httpStatus (code : Nat)
  /-- `[Warn] ... scan failed` (line 107). -/
  | scanFailed
deriving DecidableEq

/-- Outcome of one CVE task (lines 88-107): the final state of the local
`finding` dict, whether it was appended to `self.findings`, and which
progress line was printed. -/
structure CveStepResult where
  finding : Finding
  appended : Bool
  log : CveLog
deriving DecidableEq

/-- One iteration of the loop in `check_cve_signatures` (lines 87-107).
The dict starts as `status = 'not_detected'`, `details = ''` (line 90).
`if resp and resp.status_code == 200` (line 91) is `resp` truthiness
(non-`None` and `ok`) conjoined with the status test; `elif resp:`
(line 104) is `resp` truthiness alone, so a response with
`400 ≤ status_code < 600` falls through to the `else` branch at
line 107. -/
def cveStep (net : Net) (timeout : Nat) (target : String) (t : CveTask) :
    CveStepResult :=
  let url := target ++ t.path
  match robust_get net url timeout with
  | some resp =>
      if resp.ok && (resp.status_code == 200) then
        match t.keyword with
        | some kw =>
            if strContains kw resp.text then
              ⟨mkCve t.cve url "likely_present" "Keyword matched in response.",
               true, CveLog.likelyPresent⟩
            else
              ⟨mkCve t.cve url "not_detected" "", false, CveLog.keywordMissing⟩
        | none =>
            ⟨mkCve t.cve url "possibly_detected" "", true,
             CveLog.possiblyDetected⟩
      else if resp.ok then
        ⟨mkCve t.cve url "not_detected" "", false,
         CveLog.httpStatus resp.status_code⟩
      else
        ⟨mkCve t.cve url "not_detected" "", false, CveLog.scanFailed⟩
  | none => ⟨mkCve t.cve url "not_detected" "", false, CveLog.scanFailed⟩

/-- `check_cve_signatures` (lines 85-107): sequential loop over `CVE_PATHS`;
only appended findings reach `self.findings`. -/
def check_cve_signatures (net : Net) (timeout : Nat) (target : String) :
    List Finding :=
  CVE_PATHS.filterMap (fun t =>
    let r := cveStep net timeout target t
    if r.appended then some r.finding else none)

/-- Python `target.rstrip('/')` (line 50): remove every trailing `'/'`. -/
def rstripSlash (s : String) : String :=
  String.mk ((s.data.reverse.dropWhile (fun c => c == '/')).reverse)

/-- The scanner object state (lines 43-54). -/
structure WebVulnScanner where
  target : String
  timeout : Nat
  threads : Nat
  findings : List Finding
  integration_output : Option String
deriving DecidableEq

/-- `WebVulnScanner.__init__` (lines 43-54): stores the target with trailing
slashes stripped and starts with an empty findings list. -/
def mkScanner (target : String) (timeout threads : Nat)
    (integration_output : Option String) : WebVulnScanner :=
  ⟨rstripSlash target, timeout, threads, [], integration_output⟩

/-! ## JSON export (`save_results_json`, lines 109-113) and its parse-back

The scanner exports `self.findings` — a list of flat dicts with string keys
and string values — via `json.dump`.  We model the serialized text by an
executable renderer over exactly that shape (strings with `"` and `\`
escaped, `": "` and `", "` separators as in the `json` module), and model
`json.loads` by an executable parser. -/

/-- The `"` character. -/
def quoteChar : Char := '"'

/-- The `\` character. -/
def backslashChar : Char := '\\'

/-- The left curly brace character. -/
def lbraceChar : Char := Char.ofNat 123

/-- The right curly brace character. -/
def rbraceChar : Char := Char.ofNat 125

/-- JSON string escaping of one character (`"` and `\` get a backslash). -/
def escapeChar (c : Char) : List Char :=
  if c == quoteChar || c == backslashChar then [backslashChar, c] else [c]

/-- JSON string escaping of a character list. -/
def escapeList (l : List Char) : List Char :=
  (l.map escapeChar).flatten

/-- A JSON string literal: `"` + escaped content + `"`. -/
def renderString (s : String) : List Char :=
  quoteChar :: (escapeList s.data ++ [quoteChar])

/-- One `"key": "value"` pair. -/
def renderPair (p : String × String) : List Char :=
  renderString p.1 ++ ':' :: ' ' :: renderString p.2

/-- Pairs joined by `", "`. -/
def renderPairsSep : List (String × String) → List Char
  | [] => []
  | [p] => renderPair p
  | p :: q :: rest => renderPair p ++ ',' :: ' ' :: renderPairsSep (q :: rest)

/-- One finding dict as a JSON object. -/
def renderObj (f : Finding) : List Char :=
  lbraceChar :: (renderPairsSep f ++ [rbraceChar])

/-- Objects joined by `", "`. -/
def renderObjsSep : List Finding → List Char
  | [] => []
  | [f] => renderObj f
  | f :: g :: rest => renderObj f ++ ',' :: ' ' :: renderObjsSep (g :: rest)

/-- The exported JSON text for a findings list: a JSON array of objects
(`json.dump(self.findings, f)`, line 112). -/
def renderFindings (fs : List Finding) : String :=
  String.mk ('[' :: (renderObjsSep fs ++ [']']))

/-- `save_results_json` (lines 109-113): when `integration_output` is set,
the findings list is serialized and written to that file; we model the
written text. Otherwise nothing is written. -/
def save_results_json (s : WebVulnScanner) : Option String :=
  match s.integration_output with
  | some _ => some (renderFindings s.findings)
  | none => none

/-- `run` (lines 115-122): common-paths phase, then CVE-signature phase,
then export; each phase extends `self.findings` in program order. Returns
the final scanner state and the exported JSON text (if any). -/
def runScanner (net : Net) (s : WebVulnScanner) :
    WebVulnScanner × Option String :=
  let s1 : WebVulnScanner :=
    { s with findings := s.findings ++ check_common_paths net s.timeout s.target }
  let s2 : WebVulnScanner :=
    { s1 with findings :=
        s1.findings ++ check_cve_signatures net s1.timeout s1.target }
  (s2, save_results_json s2)

/-- Parse the body of a JSON string literal up to the closing `"`,
undoing `escapeList`; returns the decoded characters and the rest. -/
def parseStrBody : List Char → Option (List Char × List Char)
  | [] => none
  | c :: rest =>
    if c == quoteChar then some ([], rest)
    else if c == backslashChar then
      match rest with
      | [] => none
      | d :: rest2 =>
        match parseStrBody rest2 with
        | none => none
        | some (sBody, r) => some (d :: sBody, r)
    else
      match parseStrBody rest with
      | none => none
      | some (sBody, r) => some (c :: sBody, r)

/-- Parse a JSON string literal. -/
def parseStringTok (l : List Char) : Option (String × List Char) :=
  match l with
  | c :: rest =>
      if c == quoteChar then
        match parseStrBody rest with
        | none => none
        | some (sBody, r) => some (String.mk sBody, r)
      else none
  | [] => none

/-- Parse one `"key": "value"` pair. -/
def parsePairTok (l : List Char) : Option ((String × String) × List Char) :=
  match parseStringTok l with
  | none => none
  | some (k, r1) =>
    match r1 with
    | ':' :: ' ' :: r2 =>
      match parseStringTok r2 with
      | none => none
      | some (v, r3) => some ((k, v), r3)
    | _ => none

/-- Parse a nonempty `", "`-separated pair sequence terminated by `}`;
`fuel` bounds the number of pairs. -/
def parsePairSeq : Nat → List Char → Option (Finding × List Char)
  | 0, _ => none
  | Nat.succ fuel, l =>
    match parsePairTok l with
    | none => none
    | some (p, r) =>
      match r with
      | [] => none
      | c :: r2 =>
        if c == rbraceChar then some ([p], r2)
        else if c == ',' then
          match r2 with
          | ' ' :: r3 =>
            match parsePairSeq fuel r3 with
            | none => none
            | some (ps, rr) => some (p :: ps, rr)
          | _ => none
        else none

/-- Parse one JSON object into a finding dict. -/
def parseObjTok (fuel : Nat) (l : List Char) : Option (Finding × List Char) :=
  match l with
  | [] => none
  | c :: rest =>
    if c == lbraceChar then
      match rest with
      | [] => none
      | d :: rest2 =>
        if d == rbraceChar then some (([] : Finding), rest2)
        else parsePairSeq fuel (d :: rest2)
    else none

/-- Parse a nonempty `", "`-separated object sequence terminated by `]`;
`fuel` bounds the total number of objects and pairs. -/
def parseObjSeq : Nat → List Char → Option (List Finding × List Char)
  | 0, _ => none
  | Nat.succ fuel, l =>
    match parseObjTok fuel l with
    | none => none
    | some (f, r) =>
      match r with
      | [] => none
      | c :: r2 =>
        if c == ']' then some ([f], r2)
        else if c == ',' then
          match r2 with
          | ' ' :: r3 =>
            match parseObjSeq fuel r3 with
            | none => none
            | some (fs, rr) => some (f :: fs, rr)
          | _ => none
        else none

/-- `json.loads` of an exported findings file: a JSON array of flat
string-valued objects, consuming the whole input. -/
def parseFindings (s : String) : Option (List Finding) :=
  match s.data with
  | [] => none
  | c :: rest =>
    if c == '[' then
      match rest with
      | [] => none
      | d :: _ =>
        if d == ']' then (if rest.length == 1 then some [] else none)
        else
          match parseObjSeq rest.length rest with
          | some (fs, r) => if r.isEmpty then some fs else none
          | none => none
    else none

/-! ## Concurrent worker-pool model for `check_common_paths` (lines 59-82)

`check_common_paths` puts every common path on a `queue.Queue`, starts
`self.threads` worker threads, and waits on `pathq.join()`.  Each worker
loops: `pathq.get()` (atomic removal of the head), probe and classify
(appending to `results` on a finding), then `pathq.task_done()`.
`pathq.join()` returns exactly when the number of `task_done` calls equals
the number of enqueued tasks; since each worker appends before calling
`task_done`, at that point every append has happened.  We model this with a
transition relation: `take` is a worker's `get()`, `finish` is the
probe/classify/append followed by `task_done`. -/

/-- State of the pool: the pending queue (FIFO), each worker's currently
held task (`none` = idle), the tasks already completed in completion order,
the shared `results` list, and the `task_done` counter that `join()`
observes. -/
structure PoolState where
  queue : List String
  holding : List (Option String)
  processed : List String
  results : List Finding
  doneCount : Nat
deriving DecidableEq

/-- One transition of the pool, parameterized by the per-task classifier
`F` (for the common-paths phase, `pathStep net timeout target`). -/
inductive Step (F : String → Option Finding) : PoolState → PoolState → Prop
  /-- An idle worker `w` dequeues the head of the queue (`pathq.get()`,
  line 61). -/
  | take (s : PoolState) (w : Nat) (p : String) (rest : List String)
      (hq : s.queue = p :: rest) (hw : s.holding.get? w = some none) :
      Step F s
        ⟨rest, s.holding.set w (some p), s.processed, s.results, s.doneCount⟩
  /-- Worker `w` finishes its held task: probes, appends the classified
  finding (if any) to `results` (lines 64-68), and calls `task_done()`
  (line 69). -/
  | finish (s : PoolState) (w : Nat) (p : String)
      (hw : s.holding.get? w = some (some p)) :
      Step F s
        ⟨s.queue, s.holding.set w none, s.processed ++ [p],
         s.results ++ (F p).toList, s.doneCount + 1⟩

/-- Initial pool state: all tasks enqueued up front (lines 70-72), `n`
idle workers started (lines 73-77). -/
def initState (tasks : List String) (n : Nat) : PoolState :=
  ⟨tasks, List.replicate n none, [], [], 0⟩

/-- A constant network environment (every URL behaves the same), used to
build concrete scenarios. -/
def netConst (ev : NetEvent) : Net := fun _ _ => ev

/-- Fuel measure for parsing a rendered object sequence: one unit per
object plus one per pair. -/
def objsFuel (fs : List Finding) : Nat :=
  fs.foldr (fun f a => f.length + 1 + a) 0

/-- The pool invariant: worker count is fixed, `doneCount` counts completed
tasks, `results` is exactly the classified findings of the completed tasks
in completion order, and completed + in-flight + pending tasks are a
permutation of the enqueued tasks. -/
def PoolInv (F : String → Option Finding) (tasks : List String) (n : Nat)
    (s : PoolState) : Prop :=
  s.holding.length = n ∧
  s.doneCount = s.processed.length ∧
  s.results = s.processed.filterMap F ∧
  (s.processed : Multiset String) + (s.holding.filterMap id : Multiset String)
      + (s.queue : Multiset String) = (tasks : Multiset String)

/-! ## Basic classification lemmas -/

theorem pathStep_of_success (net : Net) (timeout : Nat) (target p : String)
    (r : Response) (h : robust_get net (target ++ p) timeout = some r)
    (hs : r.status_code = 200) :
    pathStep net timeout target p = some (mkExposed (target ++ p)) := by
  have hok : (r.ok && (r.status_code == 200)) = true := by
    simp [Response.ok, hs]
  simp [pathStep, h, hok]

theorem pathStep_of_non200 (net : Net) (timeout : Nat) (target p : String)
    (r : Response) (h : robust_get net (target ++ p) timeout = some r)
    (hs : r.status_code ≠ 200) :
    pathStep net timeout target p = none := by
  have hok : (r.ok && (r.status_code == 200)) = false := by
    simp [hs]
  simp [pathStep, h, hok]

theorem pathStep_of_failure (net : Net) (timeout : Nat) (target p : String)
    (h : robust_get net (target ++ p) timeout = none) :
    pathStep net timeout target p = none := by
  simp [pathStep, h]

theorem pathStep_some_shape (net : Net) (timeout : Nat) (target p : String)
    (f : Finding) (h : pathStep net timeout target p = some f) :
    f = mkExposed (target ++ p) := by
  unfold pathStep at h
  rcases hr : robust_get net (target ++ p) timeout with _ | r <;>
    simp [hr] at h
  rcases h with ⟨-, h2⟩
  exact h2.symm

theorem cveStep_of_failure (net : Net) (timeout : Nat) (target : String)
    (t : CveTask) (h : robust_get net (target ++ t.path) timeout = none) :
    cveStep net timeout target t =
      ⟨mkCve t.cve (target ++ t.path) "not_detected" "", false,
       CveLog.scanFailed⟩ := by
  simp [cveStep, h]

theorem cveStep_of_200_kw_hit (net : Net) (timeout : Nat) (target : String)
    (t : CveTask) (r : Response) (kw : String)
    (h : robust_get net (target ++ t.path) timeout = some r)
    (hs : r.status_code = 200) (hk : t.keyword = some kw)
    (hc : strContains kw r.text = true) :
    cveStep net timeout target t =
      ⟨mkCve t.cve (target ++ t.path) "likely_present"
         "Keyword matched in response.", true, CveLog.likelyPresent⟩ := by
  have hok : (r.ok && (r.status_code == 200)) = true := by
    simp [Response.ok, hs]
  simp [cveStep, h, hok, hk, hc]

theorem cveStep_of_200_kw_miss (net : Net) (timeout : Nat) (target : String)
    (t : CveTask) (r : Response) (kw : String)
    (h : robust_get net (target ++ t.path) timeout = some r)
    (hs : r.status_code = 200) (hk : t.keyword = some kw)
    (hc : strContains kw r.text = false) :
    cveStep net timeout target t =
      ⟨mkCve t.cve (target ++ t.path) "not_detected" "", false,
       CveLog.keywordMissing⟩ := by
  have hok : (r.ok && (r.status_code == 200)) = true := by
    simp [Response.ok, hs]
  simp [cveStep, h, hok, hk, hc]

theorem cveStep_of_200_nokw (net : Net) (timeout : Nat) (target : String)
    (t : CveTask) (r : Response)
    (h : robust_get net (target ++ t.path) timeout = some r)
    (hs : r.status_code = 200) (hk : t.keyword = none) :
    cveStep net timeout target t =
      ⟨mkCve t.cve (target ++ t.path) "possibly_detected" "", true,
       CveLog.possiblyDetected⟩ := by
  have hok : (r.ok && (r.status_code == 200)) = true := by
    simp [Response.ok, hs]
  simp [cveStep, h, hok, hk]

theorem cveStep_of_ok_non200 (net : Net) (timeout : Nat) (target : String)
    (t : CveTask) (r : Response)
    (h : robust_get net (target ++ t.path) timeout = some r)
    (hs : r.status_code ≠ 200) (hok : r.ok = true) :
    cveStep net timeout target t =
      ⟨mkCve t.cve (target ++ t.path) "not_detected" "", false,
       CveLog.httpStatus r.status_code⟩ := by
  have h1 : (r.ok && (r.status_code == 200)) = false := by
    simp [hs]
  simp [cveStep, h, h1, hok, hs]

theorem cveStep_of_notok (net : Net) (timeout : Nat) (target : String)
    (t : CveTask) (r : Response)
    (h : robust_get net (target ++ t.path) timeout = some r)
    (hok : r.ok = false) :
    cveStep net timeout target t =
      ⟨mkCve t.cve (target ++ t.path) "not_detected" "", false,
       CveLog.scanFailed⟩ := by
  have h1 : (r.ok && (r.status_code == 200)) = false := by simp [hok]
  simp [cveStep, h, h1, hok]

theorem getField_mkCve_status (c u st d : String) :
    getField (mkCve c u st d) "status" = some st := rfl

theorem getField_mkCve_type (c u st d : String) :
    getField (mkCve c u st d) "type" = some "cve_test" := rfl

theorem getField_mkExposed_status (u : String) :
    getField (mkExposed u) "status" = none := rfl

theorem getField_mkExposed_url (u : String) :
    getField (mkExposed u) "url" = some u := rfl

/-! ## C4: the HTTP probe never propagates an exception -/

/-- C4: for every URL and timeout, `robust_get` is total over every network
outcome: on any transport-level failure (every
`requests.exceptions.RequestException`: connection refused, DNS failure,
timeout exceeded, TLS handshake failure) it returns `none`, carrying only
the printed error description; on success it returns the response with its
status code and full body; and there is no third possibility. -/
theorem robust_get_never_throws (net : Net) (url : String) (timeout : Nat) :
    (∀ e, net url timeout = NetEvent.failure e →
       robust_get net url timeout = none) ∧
    (∀ r, net url timeout = NetEvent.success r →
       robust_get net url timeout = some r) ∧
    (robust_get net url timeout = none ∨
     ∃ r, robust_get net url timeout = some r ∧
       net url timeout = NetEvent.success r) := by
  refine ⟨?_, ?_, ?_⟩ <;> rcases h : net url timeout with r | e <;>
    simp [robust_get, h]

/-- Witness for C4 at a concrete transport failure. -/
theorem robust_get_never_throws_witness :
    robust_get (netConst (NetEvent.failure "connection refused"))
      "http://t/admin" 7 = none := by
  exact (robust_get_never_throws (netConst (NetEvent.failure "connection refused"))
    "http://t/admin" 7).1 "connection refused" rfl

/-! ## C1: exposed-path findings iff HTTP 200 -/

/-- C1: in the common-paths phase, a task records an `exposed_path` finding
iff its probe outcome has HTTP status 200; any other status and any
transport failure record nothing, and the recorded finding is exactly the
exposed-path record for `target + path`. The phase is the collection of
these per-task outcomes over `COMMON_PATHS`. -/
theorem exposed_path_iff_status200 (net : Net) (timeout : Nat)
    (target p : String) :
    (pathStep net timeout target p ≠ none ↔
      ∃ r, robust_get net (target ++ p) timeout = some r ∧
        r.status_code = 200) ∧
    (∀ f, pathStep net timeout target p = some f →
      f = mkExposed (target ++ p)) ∧
    check_common_paths net timeout target =
      COMMON_PATHS.filterMap (pathStep net timeout target) := by
  refine ⟨?_, pathStep_some_shape net timeout target p, rfl⟩
  constructor
  · intro hne
    rcases hr : robust_get net (target ++ p) timeout with _ | r
    · exact absurd (pathStep_of_failure net timeout target p hr) hne
    · refine ⟨r, rfl, ?_⟩
      by_contra hs
      exact hne (pathStep_of_non200 net timeout target p r hr hs)
  · rintro ⟨r, hr, hs⟩
    rw [pathStep_of_success net timeout target p r hr hs]
    simp

/-- Witness for C1 at a concrete 200 response. -/
theorem exposed_path_iff_status200_witness :
    pathStep (netConst (NetEvent.success ⟨200, "ok"⟩)) 7 "http://t" "/admin"
      ≠ none := by
  exact (exposed_path_iff_status200 (netConst (NetEvent.success ⟨200, "ok"⟩))
    7 "http://t" "/admin").1.mpr ⟨⟨200, "ok"⟩, rfl, rfl⟩

/-! ## C6: a 404 never yields a finding -/

/-- C6: in both phases, a probe outcome with HTTP status 404 never causes a
finding to be appended: the common-paths task classifies to no finding, and
the CVE task is not appended. -/
theorem status404_no_finding (net : Net) (timeout : Nat) (target : String) :
    (∀ p r, robust_get net (target ++ p) timeout = some r →
       r.status_code = 404 → pathStep net timeout target p = none) ∧
    (∀ t r, robust_get net (target ++ CveTask.path t) timeout = some r →
       r.status_code = 404 → (cveStep net timeout target t).appended = false) := by
  constructor
  · intro p r hr hs
    exact pathStep_of_non200 net timeout target p r hr (by omega)
  · intro t r hr hs
    have hok : r.ok = false := by
      simp only [Response.ok, hs]
      rfl
    rw [cveStep_of_notok net timeout target t r hr hok]

/-- Witness for C6 at a concrete 404 response. -/
theorem status404_no_finding_witness :
    pathStep (netConst (NetEvent.success ⟨404, "not found"⟩)) 7 "http://t"
        "/admin" = none ∧
    (cveStep (netConst (NetEvent.success ⟨404, "not found"⟩)) 7 "http://t"
        ⟨"CVE-2019-19781", "/vpn/../vpns/", none⟩).appended = false := by
  refine ⟨?_, ?_⟩
  · exact (status404_no_finding (netConst (NetEvent.success ⟨404, "not found"⟩))
      7 "http://t").1 "/admin" ⟨404, "not found"⟩ rfl rfl
  · exact (status404_no_finding (netConst (NetEvent.success ⟨404, "not found"⟩))
      7 "http://t").2 ⟨"CVE-2019-19781", "/vpn/../vpns/", none⟩
      ⟨404, "not found"⟩ rfl rfl

/-! ## C2: classification of a 200 response in the CVE phase -/

/-- C2: for a CVE task whose probe outcome has status 200: with an expected
keyword, the task is appended with status `likely_present` iff the keyword
is a literal substring of the response body, and otherwise is classified
`not_detected` and not appended; with no expected keyword, it is appended
with status `possibly_detected`. -/
theorem cve_status200_classification (net : Net) (timeout : Nat)
    (target : String) (t : CveTask) (r : Response)
    (h : robust_get net (target ++ t.path) timeout = some r)
    (hs : r.status_code = 200) :
    (∀ kw, t.keyword = some kw →
      (((cveStep net timeout target t).appended = true ∧
        getField (cveStep net timeout target t).finding "status" =
          some "likely_present") ↔ strContains kw r.text = true)) ∧
    (∀ kw, t.keyword = some kw → strContains kw r.text = false →
      (cveStep net timeout target t).appended = false ∧
      getField (cveStep net timeout target t).finding "status" =
        some "not_detected") ∧
    (t.keyword = none →
      (cveStep net timeout target t).appended = true ∧
      getField (cveStep net timeout target t).finding "status" =
        some "possibly_detected") := by
  refine ⟨?_, ?_, ?_⟩
  · intro kw hk
    constructor
    · intro ⟨happ, _⟩
      by_contra hc
      rw [Bool.not_eq_true] at hc
      rw [cveStep_of_200_kw_miss net timeout target t r kw h hs hk hc] at happ
      exact absurd happ (by simp)
    · intro hc
      rw [cveStep_of_200_kw_hit net timeout target t r kw h hs hk hc]
      exact ⟨rfl, getField_mkCve_status _ _ _ _⟩
  · intro kw hk hc
    rw [cveStep_of_200_kw_miss net timeout target t r kw h hs hk hc]
    exact ⟨rfl, getField_mkCve_status _ _ _ _⟩
  · intro hk
    rw [cveStep_of_200_nokw net timeout target t r h hs hk]
    exact ⟨rfl, getField_mkCve_status _ _ _ _⟩

/-- Witness for C2: the Struts task against a 200 body containing the
keyword. -/
theorem cve_status200_classification_witness :
    (cveStep (netConst (NetEvent.success ⟨200, "Apache Struts showcase"⟩)) 7
        "http://t" ⟨"CVE-2017-5638", "/struts2-showcase/index.action",
          some "Apache"⟩).appended = true ∧
    getField (cveStep (netConst (NetEvent.success ⟨200, "Apache Struts showcase"⟩))
        7 "http://t" ⟨"CVE-2017-5638", "/struts2-showcase/index.action",
          some "Apache"⟩).finding "status" = some "likely_present" := by
  exact ((cve_status200_classification
      (netConst (NetEvent.success ⟨200, "Apache Struts showcase"⟩)) 7 "http://t"
      ⟨"CVE-2017-5638", "/struts2-showcase/index.action", some "Apache"⟩
      ⟨200, "Apache Struts showcase"⟩ rfl rfl).1 "Apache" rfl).mpr (by decide)

/-! ## C5: non-200 and transport-failure CVE outcomes -/

/-- C5 as stated is false on the code: the claim says the "scan failed"
annotation distinguishes the transport-failure case, but `elif resp:`
(line 104) tests `requests` truthiness (false exactly for
`400 ≤ status_code < 600`), so a genuine HTTP 404 response also falls into
the `else` branch and prints `[Warn] ... scan failed` (line 107),
indistinguishable from a transport failure. Concretely: a 404 probe
outcome is not a transport failure, yet its log is `scanFailed`. -/
theorem scan_failed_log_404 :
    (cveStep (netConst (NetEvent.success ⟨404, "not found"⟩)) 7 "http://t"
        ⟨"CVE-2019-19781", "/vpn/../vpns/", none⟩).log = CveLog.scanFailed ∧
    robust_get (netConst (NetEvent.success ⟨404, "not found"⟩))
        ("http://t" ++ "/vpn/../vpns/") 7 ≠ none := by
  exact ⟨rfl, by simp [robust_get, netConst]⟩

/-- C5 (amended): for every CVE task whose probe outcome carries no status
(transport failure) or whose status is not 200, the classification is
`not_detected` and no finding is appended; the "scan failed" annotation is
printed on transport failure but also on every response with status in
the `requests`-falsy band `400 ≤ status < 600`, so it does not single out
transport failures; responses with any other status ≠ 200 (1xx-3xx and the
600-999 band `http.client` accepts) get the HTTP-status annotation
instead. -/
theorem cve_non200_not_detected (net : Net) (timeout : Nat)
    (target : String) (t : CveTask) :
    (robust_get net (target ++ t.path) timeout = none →
       getField (cveStep net timeout target t).finding "status" =
         some "not_detected" ∧
       (cveStep net timeout target t).appended = false ∧
       (cveStep net timeout target t).log = CveLog.scanFailed) ∧
    (∀ r, robust_get net (target ++ t.path) timeout = some r →
       r.status_code ≠ 200 →
       getField (cveStep net timeout target t).finding "status" =
         some "not_detected" ∧
       (cveStep net timeout target t).appended = false ∧
       (400 ≤ r.status_code → r.status_code < 600 →
          (cveStep net timeout target t).log = CveLog.scanFailed) ∧
       (¬(400 ≤ r.status_code ∧ r.status_code < 600) →
          (cveStep net timeout target t).log =
            CveLog.httpStatus r.status_code)) := by
  constructor
  · intro h
    rw [cveStep_of_failure net timeout target t h]
    exact ⟨getField_mkCve_status _ _ _ _, rfl, rfl⟩
  · intro r h hs
    by_cases hbad : 400 ≤ r.status_code ∧ r.status_code < 600
    · have hok : r.ok = false := by
        simp only [Response.ok, decide_eq_false_iff_not]
        omega
      rw [cveStep_of_notok net timeout target t r h hok]
      exact ⟨getField_mkCve_status _ _ _ _, rfl, fun _ _ => rfl,
        fun hcon => absurd hbad hcon⟩
    · have hok : r.ok = true := by
        simp only [Response.ok, decide_eq_true_eq]
        omega
      rw [cveStep_of_ok_non200 net timeout target t r h hs hok]
      exact ⟨getField_mkCve_status _ _ _ _, rfl,
        fun h1 h2 => absurd ⟨h1, h2⟩ hbad, fun _ => rfl⟩

/-- Witness for the amended C5 at a concrete transport failure. -/
theorem cve_non200_not_detected_witness :
    getField (cveStep (netConst (NetEvent.failure "timeout")) 7 "http://t"
        ⟨"CVE-2019-19781", "/vpn/../vpns/", none⟩).finding "status" =
      some "not_detected" ∧
    (cveStep (netConst (NetEvent.failure "timeout")) 7 "http://t"
        ⟨"CVE-2019-19781", "/vpn/../vpns/", none⟩).appended = false ∧
    (cveStep (netConst (NetEvent.failure "timeout")) 7 "http://t"
        ⟨"CVE-2019-19781", "/vpn/../vpns/", none⟩).log = CveLog.scanFailed := by
  exact (cve_non200_not_detected (netConst (NetEvent.failure "timeout")) 7
    "http://t" ⟨"CVE-2019-19781", "/vpn/../vpns/", none⟩).1 rfl

/-! ## C10: appended CVE findings and their statuses -/

theorem cveStep_appended_status (net : Net) (timeout : Nat) (target : String)
    (t : CveTask) (happ : (cveStep net timeout target t).appended = true) :
    getField (cveStep net timeout target t).finding "status" =
        some "likely_present" ∨
    getField (cveStep net timeout target t).finding "status" =
        some "possibly_detected" := by
  rcases h : robust_get net (target ++ t.path) timeout with _ | r
  · rw [cveStep_of_failure net timeout target t h] at happ
    exact absurd happ (by simp)
  · by_cases h4 : r.ok = true
    · by_cases hs : r.status_code = 200
      · rcases hk : t.keyword with _ | kw
        · rw [cveStep_of_200_nokw net timeout target t r h hs hk]
          exact Or.inr (getField_mkCve_status _ _ _ _)
        · by_cases hc : strContains kw r.text = true
          · rw [cveStep_of_200_kw_hit net timeout target t r kw h hs hk hc]
            exact Or.inl (getField_mkCve_status _ _ _ _)
          · rw [Bool.not_eq_true] at hc
            rw [cveStep_of_200_kw_miss net timeout target t r kw h hs hk hc]
              at happ
            exact absurd happ (by simp)
      · rw [cveStep_of_ok_non200 net timeout target t r h hs h4] at happ
        exact absurd happ (by simp)
    · rw [Bool.not_eq_true] at h4
      rw [cveStep_of_notok net timeout target t r h h4] at happ
      exact absurd happ (by simp)

theorem mem_check_cve_signatures (net : Net) (timeout : Nat) (target : String)
    (f : Finding) (hf : f ∈ check_cve_signatures net timeout target) :
    ∃ t ∈ CVE_PATHS, (cveStep net timeout target t).appended = true ∧
      f = (cveStep net timeout target t).finding := by
  unfold check_cve_signatures at hf
  rcases List.mem_filterMap.mp hf with ⟨t, ht, heq⟩
  by_cases happ : (cveStep net timeout target t).appended = true
  · refine ⟨t, ht, happ, ?_⟩
    simp only [happ, if_pos] at heq
    exact (Option.some_inj.mp heq).symm
  · rw [Bool.not_eq_true] at happ
    simp [happ] at heq

theorem mem_check_common_paths (net : Net) (timeout : Nat) (target : String)
    (f : Finding) (hf : f ∈ check_common_paths net timeout target) :
    ∃ p ∈ COMMON_PATHS, f = mkExposed (target ++ p) := by
  unfold check_common_paths at hf
  rcases List.mem_filterMap.mp hf with ⟨p, hp, heq⟩
  exact ⟨p, hp, pathStep_some_shape net timeout target p f heq⟩

/-- C10: every `cve_test` finding appended to the findings collection has
status `likely_present` or `possibly_detected`; a task classified
`not_detected` produces no entry, so the findings `run()` exports never
contain a `not_detected` record (exposed-path records carry no status field
at all). -/
theorem cve_findings_status_invariant (net : Net) (timeout threads : Nat)
    (target rawTarget : String) (io : Option String) :
    (∀ f ∈ check_cve_signatures net timeout target,
       getField f "status" = some "likely_present" ∨
       getField f "status" = some "possibly_detected") ∧
    (∀ f ∈ (runScanner net (mkScanner rawTarget timeout threads io)).1.findings,
       getField f "status" ≠ some "not_detected") := by
  constructor
  · intro f hf
    rcases mem_check_cve_signatures net timeout target f hf with
      ⟨t, _, happ, heq⟩
    rw [heq]
    exact cveStep_appended_status net timeout target t happ
  · intro f hf
    have hfl : (runScanner net (mkScanner rawTarget timeout threads io)).1.findings
        = ([] ++ check_common_paths net timeout (rstripSlash rawTarget)) ++
          check_cve_signatures net timeout (rstripSlash rawTarget) := rfl
    rw [hfl] at hf
    rcases List.mem_append.mp hf with hf1 | hf2
    · rw [List.nil_append] at hf1
      rcases mem_check_common_paths net timeout (rstripSlash rawTarget) f hf1
        with ⟨p, _, heq⟩
      rw [heq, getField_mkExposed_status]
      simp
    · rcases mem_check_cve_signatures net timeout (rstripSlash rawTarget) f hf2
        with ⟨t, _, happ, heq⟩
      rw [heq]
      rcases cveStep_appended_status net timeout (rstripSlash rawTarget) t happ
        with h | h <;> rw [h] <;> simp

/-- Witness for C10 on a concrete scan where the CVE phase appends a
`possibly_detected` finding. -/
theorem cve_findings_status_invariant_witness :
    getField (mkCve "CVE-2019-19781" ("http://t" ++ "/vpn/../vpns/")
        "possibly_detected" "") "status" ≠ some "not_detected" := by
  exact (cve_findings_status_invariant (netConst (NetEvent.success ⟨200, "x"⟩))
      7 8 "http://t" "http://t/" none).2
    (mkCve "CVE-2019-19781" ("http://t" ++ "/vpn/../vpns/")
      "possibly_detected" "") (by decide)

/-! ## C7: `run()` phase ordering -/

/-- C7: `run()` executes the phases strictly in order: the final findings
list is the initial findings, then all common-path findings, then all
CVE-signature findings — so the CVE phase starts with every common-path
finding already in the collection — and the export (when requested) sees
exactly the findings of both phases; the scanner's configuration is
untouched. -/
theorem run_phase_order (net : Net) (s : WebVulnScanner) :
    (runScanner net s).1.findings =
      (s.findings ++ check_common_paths net s.timeout s.target) ++
        check_cve_signatures net s.timeout s.target ∧
    (runScanner net s).1.target = s.target ∧
    (runScanner net s).1.timeout = s.timeout ∧
    (runScanner net s).1.threads = s.threads ∧
    (runScanner net s).1.integration_output = s.integration_output ∧
    (runScanner net s).2 = s.integration_output.map (fun _ =>
      renderFindings ((s.findings ++ check_common_paths net s.timeout s.target)
        ++ check_cve_signatures net s.timeout s.target)) := by
  refine ⟨rfl, rfl, rfl, rfl, rfl, ?_⟩
  rcases h : s.integration_output with _ | path <;>
    simp [runScanner, save_results_json, h]

/-! ## C9: target normalization and probed URLs -/

theorem rstripSlash_spec (s : String) :
    (∃ k, s.data = (rstripSlash s).data ++ List.replicate k '/') ∧
    (∀ c, (rstripSlash s).data.getLast? = some c → c ≠ '/') := by
  constructor
  · refine ⟨(s.data.reverse.takeWhile (fun c => c == '/')).length, ?_⟩
    have htake : s.data.reverse.takeWhile (fun c => c == '/') =
        List.replicate (s.data.reverse.takeWhile (fun c => c == '/')).length
          '/' := by
      apply List.eq_replicate_of_mem
      intro b hb
      have := List.mem_takeWhile_imp hb
      simpa using this
    have hsplit := List.takeWhile_append_dropWhile (fun c => c == '/')
      s.data.reverse
    have h3 : (s.data.reverse.takeWhile (fun c => c == '/')).reverse =
        List.replicate (s.data.reverse.takeWhile (fun c => c == '/')).length
          '/' := by
      conv_lhs => rw [htake]
      rw [List.reverse_replicate]
    show s.data = (s.data.reverse.dropWhile (fun c => c == '/')).reverse ++
      List.replicate (s.data.reverse.takeWhile (fun c => c == '/')).length '/'
    rw [← h3, ← List.reverse_append, hsplit, List.reverse_reverse]
  · intro c hc
    have h1 : (rstripSlash s).data.getLast? =
        (s.data.reverse.dropWhile (fun c => c == '/')).head? := by
      rw [rstripSlash]
      exact List.getLast?_reverse _
    have h2 := List.head?_dropWhile_not (fun c => c == '/') s.data.reverse
    rw [h1] at hc
    rw [hc] at h2
    simpa using h2

theorem check_common_paths_net_ext (net1 net2 : Net) (timeout : Nat)
    (target : String)
    (hag : ∀ p ∈ COMMON_PATHS, net1 (target ++ p) timeout =
      net2 (target ++ p) timeout) :
    check_common_paths net1 timeout target =
      check_common_paths net2 timeout target := by
  unfold check_common_paths
  apply List.filterMap_congr
  intro p hp
  simp only [pathStep, robust_get, hag p hp]

theorem check_cve_signatures_net_ext (net1 net2 : Net) (timeout : Nat)
    (target : String)
    (hag : ∀ t ∈ CVE_PATHS, net1 (target ++ CveTask.path t) timeout =
      net2 (target ++ CveTask.path t) timeout) :
    check_cve_signatures net1 timeout target =
      check_cve_signatures net2 timeout target := by
  unfold check_cve_signatures
  apply List.filterMap_congr
  intro t ht
  simp only [cveStep, robust_get, hag t ht]

/-- C9: the stored target is the constructor argument with its trailing
slashes stripped (so it ends in no slash and the input is the stored target
plus some run of slashes); the target is never mutated by a run; the scan
depends on the network only at the URLs `target + path` for the tasks of
the two phases (so those are exactly the probed URLs); and every
common-path finding's URL is the target concatenated with its task's
path. -/
theorem target_normalization_and_urls (target : String)
    (timeout threads : Nat) (io : Option String) (net1 net2 : Net) :
    (∃ k, target.data = (mkScanner target timeout threads io).target.data ++
       List.replicate k '/') ∧
    (∀ c, (mkScanner target timeout threads io).target.data.getLast? = some c →
       c ≠ '/') ∧
    ((runScanner net1 (mkScanner target timeout threads io)).1.target =
       (mkScanner target timeout threads io).target) ∧
    ((∀ p ∈ COMMON_PATHS,
        net1 ((mkScanner target timeout threads io).target ++ p) timeout =
        net2 ((mkScanner target timeout threads io).target ++ p) timeout) →
     (∀ t ∈ CVE_PATHS,
        net1 ((mkScanner target timeout threads io).target ++ CveTask.path t)
          timeout =
        net2 ((mkScanner target timeout threads io).target ++ CveTask.path t)
          timeout) →
     runScanner net1 (mkScanner target timeout threads io) =
       runScanner net2 (mkScanner target timeout threads io)) ∧
    (∀ f ∈ check_common_paths net1 timeout
        (mkScanner target timeout threads io).target,
       ∃ p ∈ COMMON_PATHS, getField f "url" =
         some ((mkScanner target timeout threads io).target ++ p)) := by
  refine ⟨(rstripSlash_spec target).1, (rstripSlash_spec target).2, rfl,
    ?_, ?_⟩
  · intro h1 h2
    have hc : check_common_paths net1 timeout (rstripSlash target) =
        check_common_paths net2 timeout (rstripSlash target) :=
      check_common_paths_net_ext net1 net2 timeout _ h1
    have hv : check_cve_signatures net1 timeout (rstripSlash target) =
        check_cve_signatures net2 timeout (rstripSlash target) :=
      check_cve_signatures_net_ext net1 net2 timeout _ h2
    simp only [runScanner, save_results_json, mkScanner, hc, hv]
  · intro f hf
    rcases mem_check_common_paths net1 timeout
      (mkScanner target timeout threads io).target f hf with ⟨p, hp, heq⟩
    exact ⟨p, hp, by rw [heq, getField_mkExposed_url]⟩

/-- Witness for C9: normalization of a target with trailing slashes. -/
theorem target_normalization_witness :
    ∃ k, ("http://t///" : String).data =
      (mkScanner "http://t///" 7 8 none).target.data ++
        List.replicate k '/' := by
  exact (target_normalization_and_urls "http://t///" 7 8 none
    (netConst (NetEvent.failure "e")) (netConst (NetEvent.failure "e"))).1

/-! ## C8: the exported JSON round-trips -/

theorem escapeList_cons (c : Char) (t : List Char) :
    escapeList (c :: t) = escapeChar c ++ escapeList t := by
  simp [escapeList]

theorem parseStrBody_escape (l rest : List Char) :
    parseStrBody (escapeList l ++ quoteChar :: rest) = some (l, rest) := by
  induction l with
  | nil =>
      have hq : (quoteChar == quoteChar) = true := rfl
      rw [show escapeList [] ++ quoteChar :: rest = quoteChar :: rest by
        simp [escapeList]]
      rw [parseStrBody.eq_def]
      simp [hq]
  | cons c t ih =>
      rw [escapeList_cons]
      by_cases hc : (c == quoteChar || c == backslashChar) = true
      · have hbq : (backslashChar == quoteChar) = false := rfl
        have hbb : (backslashChar == backslashChar) = true := rfl
        rw [show (escapeChar c ++ escapeList t) ++ quoteChar :: rest =
            backslashChar :: c :: (escapeList t ++ quoteChar :: rest) by
          simp [escapeChar, hc]]
        rw [parseStrBody.eq_def]
        simp [hbq, hbb, ih]
      · have hc' := hc
        rw [Bool.or_eq_true, not_or] at hc'
        obtain ⟨h1, h2⟩ := hc'
        rw [Bool.not_eq_true] at h1 h2
        rw [show (escapeChar c ++ escapeList t) ++ quoteChar :: rest =
            c :: (escapeList t ++ quoteChar :: rest) by
          simp [escapeChar, h1, h2]]
        rw [parseStrBody.eq_def]
        simp [h1, h2, ih]

theorem parseStringTok_render (s : String) (rest : List Char) :
    parseStringTok (renderString s ++ rest) = some (s, rest) := by
  have h : renderString s ++ rest =
      quoteChar :: (escapeList s.data ++ (quoteChar :: rest)) := by
    simp [renderString]
  rw [h]
  have hq : (quoteChar == quoteChar) = true := rfl
  simp [parseStringTok, hq, parseStrBody_escape]

theorem parsePairTok_render (p : String × String) (rest : List Char) :
    parsePairTok (renderPair p ++ rest) = some (p, rest) := by
  obtain ⟨k, v⟩ := p
  have h : renderPair (k, v) ++ rest =
      renderString k ++ (':' :: ' ' :: (renderString v ++ rest)) := by
    simp [renderPair]
  rw [h]
  simp [parsePairTok, parseStringTok_render]

theorem renderPair_head (p : String × String) :
    ∃ X, renderPair p = quoteChar :: X := by
  refine ⟨(escapeList p.1.data ++ [quoteChar]) ++
    ':' :: ' ' :: renderString p.2, ?_⟩
  simp [renderPair, renderString]

theorem renderPairsSep_head (p : String × String) (t : List (String × String)) :
    ∃ X, renderPairsSep (p :: t) = quoteChar :: X := by
  obtain ⟨X, hX⟩ := renderPair_head p
  cases t with
  | nil => exact ⟨X, by simp [renderPairsSep, hX]⟩
  | cons q t' =>
      exact ⟨X ++ ',' :: ' ' :: renderPairsSep (q :: t'),
        by simp [renderPairsSep, hX]⟩

theorem parsePairSeq_render (ps : Finding) (hne : ps ≠ []) :
    ∀ (fuel : Nat), ps.length ≤ fuel → ∀ (rest : List Char),
    parsePairSeq fuel (renderPairsSep ps ++ rbraceChar :: rest) =
      some (ps, rest) := by
  induction ps with
  | nil => exact absurd rfl hne
  | cons p t ih =>
      intro fuel hf rest
      obtain ⟨n, rfl⟩ : ∃ n, fuel = n + 1 := by
        cases fuel with
        | zero => simp at hf
        | succ n => exact ⟨n, rfl⟩
      cases t with
      | nil =>
          have hrb : (rbraceChar == rbraceChar) = true := rfl
          simp only [renderPairsSep]
          simp [parsePairSeq, parsePairTok_render, hrb]
      | cons q t' =>
          have h : renderPairsSep (p :: q :: t') ++ rbraceChar :: rest =
              renderPair p ++ (',' :: ' ' ::
                (renderPairsSep (q :: t') ++ rbraceChar :: rest)) := by
            simp [renderPairsSep]
          rw [h]
          have hcr : (',' == rbraceChar) = false := rfl
          have hcc : (',' == ',') = true := rfl
          have hlen : (q :: t').length ≤ n := by
            simp at hf ⊢; omega
          simp [parsePairSeq, parsePairTok_render, hcr, hcc,
            ih (by simp) n hlen rest]

theorem parseObjTok_render (f : Finding) (fuel : Nat) (hf : f.length ≤ fuel)
    (rest : List Char) :
    parseObjTok fuel (renderObj f ++ rest) = some (f, rest) := by
  have hlb : (lbraceChar == lbraceChar) = true := rfl
  cases f with
  | nil =>
      have hrb : (rbraceChar == rbraceChar) = true := rfl
      simp [renderObj, renderPairsSep, parseObjTok, hlb, hrb]
  | cons p t =>
      obtain ⟨X, hX⟩ := renderPairsSep_head p t
      have h : renderObj (p :: t) ++ rest =
          lbraceChar :: quoteChar ::
            (X ++ rbraceChar :: rest) := by
        simp [renderObj, hX]
      rw [h]
      have hqb : (quoteChar == rbraceChar) = false := rfl
      have h2 : quoteChar :: (X ++ rbraceChar :: rest) =
          renderPairsSep (p :: t) ++ rbraceChar :: rest := by
        simp [hX]
      simp only [parseObjTok, hlb, if_pos, hqb, Bool.false_eq_true, if_neg]
      rw [h2]
      exact parsePairSeq_render (p :: t) (by simp) fuel hf rest

theorem renderObj_head (f : Finding) :
    ∃ X, renderObj f = lbraceChar :: X :=
  ⟨_, rfl⟩

theorem renderObjsSep_head (f : Finding) (t : List Finding) :
    ∃ X, renderObjsSep (f :: t) = lbraceChar :: X := by
  cases t with
  | nil =>
      exact ⟨renderPairsSep f ++ [rbraceChar], by simp [renderObjsSep, renderObj]⟩
  | cons g t' =>
      exact ⟨(renderPairsSep f ++ [rbraceChar]) ++
        ',' :: ' ' :: renderObjsSep (g :: t'),
        by simp [renderObjsSep, renderObj]⟩

theorem parseObjSeq_render (fs : List Finding) (hne : fs ≠ []) :
    ∀ (fuel : Nat), objsFuel fs ≤ fuel → ∀ (rest : List Char),
    parseObjSeq fuel (renderObjsSep fs ++ ']' :: rest) = some (fs, rest) := by
  induction fs with
  | nil => exact absurd rfl hne
  | cons f t ih =>
      intro fuel hf rest
      obtain ⟨n, rfl⟩ : ∃ n, fuel = n + 1 := by
        cases fuel with
        | zero =>
            exfalso
            simp [objsFuel] at hf
        | succ n => exact ⟨n, rfl⟩
      have hfn : f.length ≤ n := by
        simp [objsFuel] at hf; omega
      cases t with
      | nil =>
          have hbb : (']' == ']') = true := rfl
          simp only [renderObjsSep]
          simp [parseObjSeq, parseObjTok_render f n hfn, hbb]
      | cons g t' =>
          have h : renderObjsSep (f :: g :: t') ++ ']' :: rest =
              renderObj f ++ (',' :: ' ' ::
                (renderObjsSep (g :: t') ++ ']' :: rest)) := by
            simp [renderObjsSep]
          rw [h]
          have hcb : (',' == ']') = false := rfl
          have hcc : (',' == ',') = true := rfl
          have hlen : objsFuel (g :: t') ≤ n := by
            simp [objsFuel] at hf ⊢; omega
          simp [parseObjSeq, parseObjTok_render f n hfn, hcb, hcc,
            ih (by simp) n hlen rest]

theorem renderPairsSep_length (f : Finding) :
    f.length ≤ (renderPairsSep f).length := by
  induction f with
  | nil => simp [renderPairsSep]
  | cons p t ih =>
      obtain ⟨X, hX⟩ := renderPair_head p
      cases t with
      | nil => simp [renderPairsSep, hX]
      | cons q t' =>
          simp only [renderPairsSep, List.length_cons, List.length_append]
          simp [renderPairsSep] at ih
          simp [hX]
          omega

theorem objsFuel_le_length (fs : List Finding) :
    objsFuel fs ≤ (renderObjsSep fs).length := by
  induction fs with
  | nil => simp [objsFuel, renderObjsSep]
  | cons f t ih =>
      have h1 : f.length + 2 ≤ (renderObj f).length := by
        have := renderPairsSep_length f
        simp [renderObj]
        omega
      cases t with
      | nil =>
          simp only [objsFuel, renderObjsSep, List.foldr] at *
          omega
      | cons g t' =>
          simp only [objsFuel, renderObjsSep, List.foldr, List.length_append,
            List.length_cons] at *
          omega

theorem parseFindings_render (fs : List Finding) :
    parseFindings (renderFindings fs) = some fs := by
  cases fs with
  | nil => rfl
  | cons f t =>
      obtain ⟨X, hX⟩ := renderObjsSep_head f t
      have hdata : (renderFindings (f :: t)).data =
          '[' :: lbraceChar :: (X ++ [']']) := by
        simp [renderFindings, hX]
      have hlbr : (lbraceChar == ']') = false := rfl
      have heq2 : lbraceChar :: (X ++ [']']) =
          renderObjsSep (f :: t) ++ ']' :: [] := by simp [hX]
      have hfuel : objsFuel (f :: t) ≤
          (renderObjsSep (f :: t) ++ ']' :: []).length := by
        have := objsFuel_le_length (f :: t)
        simp
        omega
      have hseq : parseObjSeq ((lbraceChar :: (X ++ [']'])).length)
          (lbraceChar :: (X ++ [']'])) = some (f :: t, []) := by
        conv_lhs => rw [heq2]
        exact parseObjSeq_render (f :: t) (by simp) _ hfuel []
      have hred : parseFindings (renderFindings (f :: t)) =
          match parseObjSeq ((lbraceChar :: (X ++ [']'])).length)
              (lbraceChar :: (X ++ [']'])) with
          | some (fs, r) => if r.isEmpty then some fs else none
          | none => none := by
        simp [parseFindings, hdata, hlbr]
      rw [hred, hseq]
      rfl

/-- C8: the JSON written by the export step, parsed back, yields exactly the
in-memory findings collection at export time (same length, same field
values); and every finding the scanner itself builds has the shape of the
Finding JSON record: either an exposed-path record with keys
`type`, `url`, or a CVE record with keys `type`, `cve`, `url`, `status`,
`details`. -/
theorem export_roundtrip (s : WebVulnScanner) (txt : String)
    (h : save_results_json s = some txt) :
    parseFindings txt = some s.findings ∧
    (∀ net rawTarget timeout threads io,
       s = (runScanner net (mkScanner rawTarget timeout threads io)).1 →
       ∀ f ∈ s.findings,
         (f.map Prod.fst = ["type", "url"] ∧
            getField f "type" = some "exposed_path") ∨
         (f.map Prod.fst = ["type", "cve", "url", "status", "details"] ∧
            getField f "type" = some "cve_test")) := by
  constructor
  · have htxt : txt = renderFindings s.findings := by
      unfold save_results_json at h
      rcases hio : s.integration_output with _ | path
      · rw [hio] at h; exact absurd h (by simp)
      · rw [hio] at h
        exact (Option.some_inj.mp h).symm
    rw [htxt]
    exact parseFindings_render s.findings
  · intro net rawTarget timeout threads io hs f hf
    rw [hs] at hf
    have hfl : (runScanner net (mkScanner rawTarget timeout threads io)).1.findings
        = ([] ++ check_common_paths net timeout (rstripSlash rawTarget)) ++
          check_cve_signatures net timeout (rstripSlash rawTarget) := rfl
    rw [hfl] at hf
    rcases List.mem_append.mp hf with hf1 | hf2
    · rw [List.nil_append] at hf1
      rcases mem_check_common_paths net timeout (rstripSlash rawTarget) f hf1
        with ⟨p, _, heq⟩
      exact Or.inl (by rw [heq]; exact ⟨rfl, rfl⟩)
    · rcases mem_check_cve_signatures net timeout (rstripSlash rawTarget) f hf2
        with ⟨t, _, happ, heq⟩
      refine Or.inr ?_
      rcases hr : robust_get net ((rstripSlash rawTarget) ++ t.path) timeout
        with _ | r
      · rw [cveStep_of_failure net timeout (rstripSlash rawTarget) t hr] at happ
        exact absurd happ (by simp)
      · by_cases h4 : r.ok = true
        · by_cases hst : r.status_code = 200
          · rcases hk : t.keyword with _ | kw
            · rw [heq, cveStep_of_200_nokw net timeout (rstripSlash rawTarget)
                t r hr hst hk]
              exact ⟨rfl, rfl⟩
            · by_cases hcon : strContains kw r.text = true
              · rw [heq, cveStep_of_200_kw_hit net timeout
                  (rstripSlash rawTarget) t r kw hr hst hk hcon]
                exact ⟨rfl, rfl⟩
              · rw [Bool.not_eq_true] at hcon
                rw [cveStep_of_200_kw_miss net timeout (rstripSlash rawTarget)
                  t r kw hr hst hk hcon] at happ
                exact absurd happ (by simp)
          · rw [cveStep_of_ok_non200 net timeout (rstripSlash rawTarget)
              t r hr hst h4] at happ
            exact absurd happ (by simp)
        · rw [Bool.not_eq_true] at h4
          rw [cveStep_of_notok net timeout (rstripSlash rawTarget) t r hr h4]
            at happ
          exact absurd happ (by simp)

/-- Witness for C8 at a concrete scanner with one exposed-path finding. -/
theorem export_roundtrip_witness :
    parseFindings (renderFindings [mkExposed "http://t/admin"]) =
      some [mkExposed "http://t/admin"] := by
  exact (export_roundtrip
    ⟨"http://t", 7, 8, [mkExposed "http://t/admin"], some "results.json"⟩
    (renderFindings [mkExposed "http://t/admin"]) rfl).1

/-! ## C3: the worker pool processes every task exactly once -/

theorem filterMap_id_set_some {α : Type} (l : List (Option α)) (w : Nat)
    (p : α) (h : l.get? w = some none) :
    ((l.set w (some p)).filterMap id).Perm (p :: l.filterMap id) := by
  induction l generalizing w with
  | nil => simp at h
  | cons o t ih =>
      cases w with
      | zero =>
          obtain rfl : o = none := by simpa using h
          simp
      | succ w' =>
          have h' : t.get? w' = some none := by simpa using h
          cases o with
          | none => simpa using ih w' h'
          | some a =>
              have step := (ih w' h').cons a
              refine List.Perm.trans ?_ (List.Perm.trans step ?_)
              · simp [List.set]
              · exact List.Perm.swap p a _

theorem filterMap_id_set_none {α : Type} (l : List (Option α)) (w : Nat)
    (p : α) (h : l.get? w = some (some p)) :
    (l.filterMap id).Perm (p :: (l.set w none).filterMap id) := by
  induction l generalizing w with
  | nil => simp at h
  | cons o t ih =>
      cases w with
      | zero =>
          obtain rfl : o = some p := by simpa using h
          simp
      | succ w' =>
          have h' : t.get? w' = some (some p) := by simpa using h
          cases o with
          | none => simpa using ih w' h'
          | some a =>
              have step := (ih w' h').cons a
              refine List.Perm.trans step (List.Perm.trans (List.Perm.swap p a _) ?_)
              simp [List.set]

theorem exists_holding_some {α : Type} (l : List (Option α))
    (h : l.filterMap id ≠ []) : ∃ w p, l.get? w = some (some p) := by
  induction l with
  | nil => simp at h
  | cons o t ih =>
      cases o with
      | some a => exact ⟨0, a, rfl⟩
      | none =>
          have h' : t.filterMap id ≠ [] := by simpa using h
          obtain ⟨w, p, hw⟩ := ih h'
          exact ⟨w + 1, p, by simpa using hw⟩

theorem all_none_head {α : Type} (l : List (Option α)) (hne : l ≠ [])
    (h : l.filterMap id = []) : l.get? 0 = some none := by
  cases l with
  | nil => exact absurd rfl hne
  | cons o t =>
      cases o with
      | some a => simp at h
      | none => rfl

theorem replicate_none_filterMap {α : Type} (n : Nat) :
    (List.replicate n (none : Option α)).filterMap id = [] := by
  induction n with
  | zero => rfl
  | succ m ih => simp [List.replicate, ih]

theorem pool_inv_init (F : String → Option Finding) (tasks : List String)
    (n : Nat) : PoolInv F tasks n (initState tasks n) := by
  refine ⟨by simp [initState], rfl, rfl, ?_⟩
  simp [initState, replicate_none_filterMap]

theorem pool_inv_step (F : String → Option Finding) (tasks : List String)
    (n : Nat) (s s' : PoolState) (hinv : PoolInv F tasks n s)
    (hstep : Step F s s') : PoolInv F tasks n s' := by
  obtain ⟨h1, h2, h3, h4⟩ := hinv
  cases hstep with
  | take w p rest hq hw =>
      have hmid : ((s.holding.set w (some p)).filterMap id : Multiset String)
          = p ::ₘ (s.holding.filterMap id : Multiset String) := by
        rw [Multiset.cons_coe, Multiset.coe_eq_coe]
        exact filterMap_id_set_some s.holding w p hw
      have hq2 : (s.queue : Multiset String) =
          p ::ₘ (rest : Multiset String) := by
        rw [hq, ← Multiset.cons_coe]
      rw [hq2] at h4
      refine ⟨by simp [List.length_set, h1], h2, h3, ?_⟩
      show (s.processed : Multiset String) +
        ((s.holding.set w (some p)).filterMap id : Multiset String) +
        (rest : Multiset String) = (tasks : Multiset String)
      rw [hmid, ← h4]
      simp only [← Multiset.singleton_add]
      abel
  | finish w p hw =>
      have hmid : (s.holding.filterMap id : Multiset String) =
          p ::ₘ ((s.holding.set w none).filterMap id : Multiset String) := by
        rw [Multiset.cons_coe, Multiset.coe_eq_coe]
        exact filterMap_id_set_none s.holding w p hw
      rw [hmid] at h4
      refine ⟨by simp [List.length_set, h1], by simp [h2], ?_, ?_⟩
      · show s.results ++ (F p).toList =
          (s.processed ++ [p]).filterMap F
        rw [List.filterMap_append, ← h3]
        rcases hF : F p with _ | x <;> simp [hF]
      · show ((s.processed ++ [p] : List String) : Multiset String) +
          ((s.holding.set w none).filterMap id : Multiset String) +
          (s.queue : Multiset String) = (tasks : Multiset String)
        rw [← h4, ← Multiset.coe_add]
        simp only [Multiset.coe_singleton, ← Multiset.singleton_add]
        abel

theorem pool_inv_reachable (F : String → Option Finding) (tasks : List String)
    (n : Nat) (s : PoolState)
    (h : Relation.ReflTransGen (Step F) (initState tasks n) s) :
    PoolInv F tasks n s := by
  induction h with
  | refl => exact pool_inv_init F tasks n
  | tail _ hbc ih => exact pool_inv_step F tasks n _ _ ih hbc

theorem pool_complete (F : String → Option Finding) (tasks : List String)
    (n : Nat) (s : PoolState) (hinv : PoolInv F tasks n s)
    (hd : s.doneCount = tasks.length) :
    s.queue = [] ∧ s.holding.filterMap id = [] ∧
    s.processed.Perm tasks ∧ s.results.Perm (tasks.filterMap F) := by
  obtain ⟨h1, h2, h3, h4⟩ := hinv
  have hcard := congrArg Multiset.card h4
  simp only [Multiset.card_add, Multiset.coe_card] at hcard
  have hlen : s.processed.length = tasks.length := by rw [← h2, hd]
  have hq0 : s.queue.length = 0 := by omega
  have hh0 : (s.holding.filterMap id).length = 0 := by omega
  have hq : s.queue = [] := List.length_eq_zero.mp hq0
  have hh : s.holding.filterMap id = [] := List.length_eq_zero.mp hh0
  have hperm : s.processed.Perm tasks := by
    rw [hq, hh] at h4
    simp only [Multiset.coe_nil, add_zero] at h4
    exact Multiset.coe_eq_coe.mp h4
  exact ⟨hq, hh, hperm, by rw [h3]; exact hperm.filterMap F⟩

theorem pool_progress (F : String → Option Finding) (tasks : List String)
    (n : Nat) (s : PoolState) (hinv : PoolInv F tasks n s) (hn : 1 ≤ n)
    (hd : s.doneCount < tasks.length) : ∃ u, Step F s u := by
  obtain ⟨h1, h2, h3, h4⟩ := hinv
  by_cases hH : s.holding.filterMap id = []
  · have hq : s.queue ≠ [] := by
      intro hq0
      rw [hq0, hH] at h4
      simp only [Multiset.coe_nil, add_zero] at h4
      have := congrArg Multiset.card h4
      simp only [Multiset.coe_card] at this
      omega
    obtain ⟨p, rest, hcons⟩ := List.exists_cons_of_ne_nil hq
    have hne : s.holding ≠ [] := by
      intro habs
      rw [habs] at h1
      simp at h1
      omega
    exact ⟨_, Step.take s 0 p rest hcons (all_none_head s.holding hne hH)⟩
  · obtain ⟨w, p, hw⟩ := exists_holding_some s.holding hH
    exact ⟨_, Step.finish s w p hw⟩

/-- C3: for the common-paths phase with the `COMMON_PATHS` tasks enqueued
and any positive pool size, every reachable pool state satisfies: once the
`task_done` count observed by `pathq.join()` equals the number of enqueued
tasks, the queue is empty, no worker holds a task, the multiset of
processed tasks is exactly the enqueued multiset (each task dequeued and
executed exactly once — no drop, no duplicate), and the shared results are
a permutation of the phase's findings, so the orchestrator reads the
complete findings deterministically at `join()`; and before that point the
pool can always make progress (no premature termination or deadlock). -/
theorem worker_pool_processes_all_tasks (net : Net) (timeout : Nat)
    (target : String) (n : Nat) (hn : 1 ≤ n) (s : PoolState)
    (h : Relation.ReflTransGen (Step (pathStep net timeout target))
      (initState COMMON_PATHS n) s) :
    (s.doneCount = COMMON_PATHS.length →
       s.queue = [] ∧ s.holding.filterMap id = [] ∧
       s.processed.Perm COMMON_PATHS ∧
       (∀ p, s.processed.count p = COMMON_PATHS.count p) ∧
       s.results.Perm (check_common_paths net timeout target)) ∧
    (s.doneCount < COMMON_PATHS.length →
       ∃ u, Step (pathStep net timeout target) s u) ∧
    s.doneCount = s.processed.length := by
  have hinv := pool_inv_reachable (pathStep net timeout target)
    COMMON_PATHS n s h
  refine ⟨?_, ?_, hinv.2.1⟩
  · intro hd
    obtain ⟨hq, hh, hperm, hres⟩ := pool_complete (pathStep net timeout target)
      COMMON_PATHS n s hinv hd
    exact ⟨hq, hh, hperm, fun p => hperm.count_eq p, hres⟩
  · intro hd
    exact pool_progress (pathStep net timeout target) COMMON_PATHS n s hinv
      hn hd

/-- A single worker drains any queue deterministically: used to build a
concrete full run of the pool. -/
theorem oneWorker_run (F : String → Option Finding) (queue : List String) :
    ∀ (processed : List String) (results : List Finding) (d : Nat),
    Relation.ReflTransGen (Step F)
      ⟨queue, [none], processed, results, d⟩
      ⟨[], [none], processed ++ queue, results ++ queue.filterMap F,
        d + queue.length⟩ := by
  induction queue with
  | nil =>
      intro processed results d
      simp only [List.append_nil, List.filterMap_nil, Nat.add_zero]
      exact Relation.ReflTransGen.refl
  | cons p rest ih =>
      intro processed results d
      have s1 : Step F ⟨p :: rest, [none], processed, results, d⟩
          ⟨rest, [some p], processed, results, d⟩ := by
        have := Step.take (F := F) ⟨p :: rest, [none], processed, results, d⟩
          0 p rest rfl rfl
        simpa using this
      have s2 : Step F ⟨rest, [some p], processed, results, d⟩
          ⟨rest, [none], processed ++ [p], results ++ (F p).toList, d + 1⟩ := by
        have := Step.finish (F := F) ⟨rest, [some p], processed, results, d⟩
          0 p rfl
        simpa using this
      have htail := ih (processed ++ [p]) (results ++ (F p).toList) (d + 1)
      have hchain := Relation.ReflTransGen.head s1
        (Relation.ReflTransGen.head s2 htail)
      have hfin : ((processed ++ [p]) ++ rest = processed ++ p :: rest) ∧
          ((results ++ (F p).toList) ++ rest.filterMap F =
            results ++ (p :: rest).filterMap F) ∧
          (d + 1 + rest.length = d + (p :: rest).length) := by
        refine ⟨by simp, ?_, by simp; omega⟩
        rcases hF : F p with _ | x <;>
          simp [List.filterMap_cons, hF]
      rw [hfin.1, hfin.2.1, hfin.2.2] at hchain
      exact hchain

/-- Witness for C3: a one-worker pool over `COMMON_PATHS` with every probe
failing reaches the joined state, whose results match the phase. -/
theorem worker_pool_witness :
    (⟨[], [none], COMMON_PATHS,
      COMMON_PATHS.filterMap
        (pathStep (netConst (NetEvent.failure "refused")) 7 "http://t"),
      COMMON_PATHS.length⟩ : PoolState).results.Perm
      (check_common_paths (netConst (NetEvent.failure "refused")) 7
        "http://t") := by
  have hrun := oneWorker_run
    (pathStep (netConst (NetEvent.failure "refused")) 7 "http://t")
    COMMON_PATHS [] [] 0
  have h := worker_pool_processes_all_tasks
    (netConst (NetEvent.failure "refused")) 7 "http://t" 1 (by omega)
    ⟨[], [none], COMMON_PATHS,
      COMMON_PATHS.filterMap
        (pathStep (netConst (NetEvent.failure "refused")) 7 "http://t"),
      COMMON_PATHS.length⟩
    (by simpa [initState] using hrun)
  exact ((h.1 rfl).2.2.2.2)

end VulnScanner
